import Mathlib

/-!
# Verification of the girder-nlisim orchestration layer

A shallow embedding, in Lean 4, of the orchestration and aggregation logic of
the `girder_nlisim` plugin (config expansion, run naming, job status
aggregation, the run-executor loop, and the summary aggregators), together
with theorems settling the claims of the specification against it.

Conventions of the embedding:
* Python dicts become insertion-ordered association lists; `d[k] = v` is
  `dictSet` (replace in place, else append), and `d[k]` / `d.get(k)` are
  `List.lookup`-style lookups returning `Option`.
* Python numbers driving simulated time and progress become `ℚ` (the source
  uses floats only for finite arithmetic and one `-inf` sentinel, which is
  modelled by `Option ℚ` with `none` standing for `float('-inf')`).
* Fallible code returns `Option` (a `none` models a raised exception); the
  run executor is modelled as an interpreter over an oracle environment that
  decides the outcome of each external call, producing a trace of events.
-/

namespace GirderNlisim

/-! ## Job status model

`girder_jobs.constants.JobStatus` values used by the plugin
(`INACTIVE, QUEUED, RUNNING, SUCCESS, ERROR, CANCELED`). -/

inductive JobState where
  | inactive
  | queued
  | running
  | success
  | error
  | canceled
deriving DecidableEq, Repr

/-- The experiment-status derivation of `plugin.py`, `update_status`
lines 44-70: the chained `if any(...) / elif any(...)` over the values of
`experiment['nli']['per_sim_status']`. -/
def experiment_status (statuses : List JobState) : JobState :=
  if statuses.any (fun s => s == JobState.error) then JobState.error
  else if statuses.any (fun s => s == JobState.canceled) then JobState.canceled
  else if statuses.any (fun s => s == JobState.inactive) then JobState.inactive
  else if statuses.any (fun s => s == JobState.queued) then JobState.queued
  else if statuses.any (fun s => s == JobState.running) then JobState.running
  else JobState.success

/-- The status precedence exactly as the specification words it (§4.3):
membership tests evaluated top to bottom, first match wins, all-`SUCCESS`
otherwise.  This is the spec-side definition compared against the code-side
`experiment_status`. -/
def spec_experiment_status (statuses : List JobState) : JobState :=
  if JobState.error ∈ statuses then JobState.error
  else if JobState.canceled ∈ statuses then JobState.canceled
  else if JobState.inactive ∈ statuses then JobState.inactive
  else if JobState.queued ∈ statuses then JobState.queued
  else if JobState.running ∈ statuses then JobState.running
  else JobState.success

/-- C2: for every per-child status map, the derived experiment status follows
the strict precedence ERROR > CANCELED > INACTIVE > QUEUED > RUNNING, with
SUCCESS when no child matches any earlier rule (in particular when all
children are SUCCESS): the code's chained `any` tests agree with the
spec's precedence on every child-status multiset. -/
theorem experiment_status_follows_precedence (statuses : List JobState) :
    experiment_status statuses = spec_experiment_status statuses := by
  simp [experiment_status, spec_experiment_status, List.any_eq_true]

/-! ## Simulation progress (`plugin.py` lines 23-24)

`simulation['nli']['progress'] = 100 * (progress['current'] / progress['total'])`.
The division is Python true division; a zero `progress['total']` raises
`ZeroDivisionError`, modelled as `none`. -/

/-- The progress computation of `update_status` (`plugin.py` line 24). -/
def update_status_progress (current total : ℚ) : Option ℚ :=
  if total = 0 then none else some (100 * (current / total))

/-- C4 counterexample: the claim says that when `total = 0` the progress is
reported as `0` rather than the handler dividing by zero; on the code, at
`(current, total) = (1, 0)`, the handler divides by zero (modelled `none`)
instead of reporting `some 0`. -/
theorem update_status_progress_zero_total_not_zero :
    update_status_progress 1 0 = none ∧ update_status_progress 1 0 ≠ some 0 := by
  constructor
  · rfl
  · simp [update_status_progress]

/-- C4 amended: the simulation progress is set to `100 * current / total`
whenever `total ≠ 0`; when `total = 0` the handler raises `ZeroDivisionError`
(the division is not guarded). -/
theorem update_status_progress_eq (current total : ℚ) (h : total ≠ 0) :
    update_status_progress current total = some (100 * (current / total)) := by
  simp [update_status_progress, h]

/-- Witness for `update_status_progress_eq` at `(current, total) = (1, 2)`. -/
theorem update_status_progress_eq_witness :
    update_status_progress 1 2 = some 50 := by
  have h := update_status_progress_eq 1 2 (by norm_num)
  rw [h]
  norm_num

/-! ## Configuration documents and the config expansion

A configuration document is a two-level mapping module → parameter → value,
where a value is a scalar (number, string, boolean) or a finite list of
scalars (`api.py`, `run_experiment` lines 266-292). -/

/-- A scalar configuration value (number, string or boolean). -/
inductive Scalar where
  | int (n : Int)
  | str (s : String)
  | bool (b : Bool)
deriving DecidableEq, Repr

/-- A configured parameter value: a scalar or a list of scalars. -/
inductive ParamValue where
  | scalar (v : Scalar)
  | list (vs : List Scalar)
deriving DecidableEq, Repr

/-- One module's parameter mapping inside a configuration document. -/
abbrev ModuleDoc := List (String × ParamValue)

/-- A configuration document: module name → parameter name → value. -/
abbrev ConfigDoc := List (String × ModuleDoc)

/-- A concrete configuration: every parameter resolved to one scalar. -/
abbrev Concrete := List (String × List (String × Scalar))

/-- Python `d[k] = v` on an insertion-ordered dict: replace the value in
place when the key exists, else append the pair. -/
def dictSet {κ α : Type} [DecidableEq κ] : List (κ × α) → κ → α → List (κ × α)
  | [], k, v => [(k, v)]
  | (k', v') :: rest, k, v =>
    if k' = k then (k, v) :: rest else (k', v') :: dictSet rest k v

/-- `new_cfg[module][parameter] = val` preceded by
`if module not in new_cfg: new_cfg[module] = dict()`
(`api.py` lines 283-285 and 290-292). -/
def setParam (cfg : Concrete) (m p : String) (v : Scalar) : Concrete :=
  match cfg.lookup m with
  | none => dictSet cfg m [(p, v)]
  | some inner => dictSet cfg m (dictSet inner p v)

/-- An experimental variable: a `(module, parameter)` pair whose configured
value is a list, together with that list (`api.py` lines 276-278). -/
structure ExpVar where
  module : String
  parameter : String
  values : List Scalar
deriving DecidableEq, Repr

/-- One step of the expansion loop body (`api.py` lines 272-292): a
list-valued parameter crosses every accumulated configuration with every
candidate value (registering an experimental variable when the list has
length > 1), a scalar parameter is assigned into every accumulated
configuration. -/
def expandParam (m : String) (st : List Concrete × List ExpVar) (pv : String × ParamValue) :
    List Concrete × List ExpVar :=
  match pv.2 with
  | ParamValue.list vs =>
      let vars := if vs.length > 1 then st.2 ++ [⟨m, pv.1, vs⟩] else st.2
      (st.1.flatMap (fun cfg => vs.map (fun v => setParam cfg m pv.1 v)), vars)
  | ParamValue.scalar v => (st.1.map (fun cfg => setParam cfg m pv.1 v), st.2)

/-- The config expansion of `run_experiment` (`api.py` lines 266-292):
starting from the singleton list holding the empty configuration, fold the
document in order (module, then parameter), producing the list of concrete
configurations and the ordered list of experimental variables. -/
def expand_configs (doc : ConfigDoc) : List Concrete × List ExpVar :=
  doc.foldl (fun st mdoc => mdoc.2.foldl (expandParam mdoc.1) st) ([[]], [])

/-- The lengths of all list-valued parameters of a document, in document
order. -/
def listParamLengths (doc : ConfigDoc) : List Nat :=
  doc.flatMap fun md => md.2.filterMap fun pv =>
    match pv.2 with
    | ParamValue.list vs => some vs.length
    | ParamValue.scalar _ => none

/-- The number of concrete configurations the claim predicts: the product of
the lengths of all list-valued parameters of length > 1 (spec-side
definition, following the claim's words). -/
def claimedConfigCount (doc : ConfigDoc) : Nat :=
  ((listParamLengths doc).filter (fun n => n > 1)).prod

theorem length_flatMap_map {α β γ : Type} (l : List α) (vs : List β) (g : α → β → γ) :
    (l.flatMap (fun c => vs.map (g c))).length = l.length * vs.length := by
  induction l with
  | nil => simp
  | cons c cs ih => simp [List.flatMap_cons, ih, Nat.succ_mul, Nat.add_comm]

theorem expandParam_length (m : String) (st : List Concrete × List ExpVar)
    (pv : String × ParamValue) :
    (expandParam m st pv).1.length =
      st.1.length * (match pv.2 with
        | ParamValue.list vs => vs.length
        | ParamValue.scalar _ => 1) := by
  cases pv with
  | mk p v =>
    cases v with
    | list vs =>
      simp only [expandParam]
      rw [length_flatMap_map]
    | scalar s => simp [expandParam]

theorem foldl_expandParam_length (m : String) (params : ModuleDoc)
    (st : List Concrete × List ExpVar) :
    (params.foldl (expandParam m) st).1.length =
      st.1.length * ((params.filterMap fun pv =>
        match pv.2 with
        | ParamValue.list vs => some vs.length
        | ParamValue.scalar _ => none).prod) := by
  induction params generalizing st with
  | nil => simp
  | cons pv rest ih =>
    cases hpv : pv.2 with
    | list vs =>
      simp only [List.foldl_cons, ih, expandParam_length, hpv, List.filterMap_cons]
      simp [List.prod_cons, Nat.mul_assoc]
    | scalar s =>
      simp only [List.foldl_cons, ih, expandParam_length, hpv, List.filterMap_cons]
      simp

theorem expand_configs_length (doc : ConfigDoc) :
    (expand_configs doc).1.length = (listParamLengths doc).prod := by
  suffices h : ∀ st : List Concrete × List ExpVar,
      (doc.foldl (fun st mdoc => mdoc.2.foldl (expandParam mdoc.1) st) st).1.length =
        st.1.length * (listParamLengths doc).prod by
    simpa [expand_configs] using h ([[]], [])
  induction doc with
  | nil => intro st; simp [listParamLengths]
  | cons md rest ih =>
    intro st
    simp only [List.foldl_cons, ih, foldl_expandParam_length, listParamLengths,
      List.flatMap_cons, List.prod_append, Nat.mul_assoc]

theorem prod_filter_gt_one (l : List Nat) (h : 0 ∉ l) :
    (l.filter (fun n => n > 1)).prod = l.prod := by
  induction l with
  | nil => simp
  | cons n rest ih =>
    have hn : n ≠ 0 := fun hn0 => h (hn0 ▸ List.mem_cons_self n rest)
    have hrest : 0 ∉ rest := fun hr => h (List.mem_cons_of_mem n hr)
    by_cases h1 : n > 1
    · simp [List.filter_cons, h1, ih hrest]
    · have : n = 1 := by omega
      simp [List.filter_cons, h1, ih hrest, this]

/-- C1 counterexample: on the document `{m: {p: []}}` the expansion produces
zero concrete configurations — the length-0 list empties the accumulator
(the inner `for val in []` appends nothing) — whereas the claim predicts
one configuration (the empty product over list parameters of length > 1)
in which `p` simply has no assignment. -/
theorem expand_configs_empty_list_collapses :
    (expand_configs [("m", [("p", ParamValue.list [])])]).1 = [] ∧
    claimedConfigCount [("m", [("p", ParamValue.list [])])] = 1 ∧
    (expand_configs [("m", [("p", ParamValue.list [])])]).1.length ≠
      claimedConfigCount [("m", [("p", ParamValue.list [])])] := by
  refine ⟨rfl, rfl, ?_⟩
  decide

/-- C1 on the code as written: the number of concrete configurations equals
the product of the lengths of ALL list-valued parameters (a length-1 list
contributes a factor 1, leaving the count unchanged, and a length-0 list
contributes a factor 0, collapsing the product to zero); consequently the
claim's count — the product over the list parameters of length > 1 only —
is produced exactly when no parameter's list is empty. -/
theorem expand_configs_count (doc : ConfigDoc) (h : 0 ∉ listParamLengths doc) :
    (expand_configs doc).1.length = (listParamLengths doc).prod ∧
    (expand_configs doc).1.length = claimedConfigCount doc := by
  refine ⟨expand_configs_length doc, ?_⟩
  rw [expand_configs_length doc, claimedConfigCount, prod_filter_gt_one _ h]

/-- Witness for `expand_configs_count`: the spec's own example
`{A: {x: [1,2,3]}, B: {y: [10,20]}}` yields `3 * 2 = 6` concrete
configurations. -/
theorem expand_configs_count_witness :
    (expand_configs
      [("A", [("x", ParamValue.list [Scalar.int 1, Scalar.int 2, Scalar.int 3])]),
       ("B", [("y", ParamValue.list [Scalar.int 10, Scalar.int 20])])]).1.length = 6 := by
  have h := expand_configs_count
    [("A", [("x", ParamValue.list [Scalar.int 1, Scalar.int 2, Scalar.int 3])]),
     ("B", [("y", ParamValue.list [Scalar.int 10, Scalar.int 20])])]
    (by decide)
  rw [h.2]
  decide

/-! ## Per-simulation summary statistics (`models.py`, `Simulation.get_summary_stats`)

Checkpoint subfolder metadata holds a numeric `time` tag and a nested
statistics mapping under `nli` (`tasks.py`, `GirderConfig.upload`). -/

/-- A nested statistics value: a number or a nested mapping (the shape
produced by the engine's `summaryStatistics` hook and flattened by
`flatten_dict`). -/
inductive MVal where
  | leaf (q : ℚ)
  | dict (entries : List (String × MVal))
deriving Repr

/-- The metadata of one checkpoint subfolder as read by
`Simulation.get_summary_stats`: `folder['meta'].get('time', -1)` and
`folder['meta'].get('nli', {})`, each possibly absent. -/
structure StepFolder where
  time : Option ℚ
  nli : Option (List (String × MVal))

namespace Simulation

/-- The loop body of `Simulation.get_summary_stats` (`models.py` lines
65-69): `time = folder['meta'].get('time', -1); if time < 0: continue;
stats[time] = folder['meta'].get('nli', {})`. -/
def summaryStep (stats : List (ℚ × List (String × MVal))) (f : StepFolder) :
    List (ℚ × List (String × MVal)) :=
  let time := f.time.getD (-1)
  if time < 0 then stats
  else dictSet stats time (f.nli.getD [])

/-- `models.py` lines 52-71: build the time → statistics mapping over the
simulation's subfolders, skipping any folder whose `time` metadata is absent
(defaulted to `-1`) or negative, and storing `meta.get('nli', {})` under the
time key. -/
def get_summary_stats (subfolders : List StepFolder) : List (ℚ × List (String × MVal)) :=
  subfolders.foldl summaryStep []

end Simulation

theorem dictSet_of_not_mem {κ α : Type} [DecidableEq κ] (l : List (κ × α)) (k : κ) (v : α)
    (h : k ∉ l.map Prod.fst) : dictSet l k v = l ++ [(k, v)] := by
  induction l with
  | nil => rfl
  | cons kv rest ih =>
    have hk : kv.1 ≠ k := by
      intro he
      exact h (by simp [he])
    have hrest : k ∉ rest.map Prod.fst := by
      intro hm
      exact h (List.mem_cons_of_mem _ hm)
    cases kv with
    | mk k' v' =>
      simp only [dictSet, if_neg hk, ih hrest, List.cons_append]

/-- The subfolders that qualify for the statistics mapping: `time` present
and non-negative. -/
def qualifyingSteps (subfolders : List StepFolder) : List StepFolder :=
  subfolders.filter fun f => 0 ≤ f.time.getD (-1)

theorem Simulation.get_summary_stats_go (subfolders : List StepFolder)
    (acc : List (ℚ × List (String × MVal)))
    (h : ((qualifyingSteps subfolders).map fun f => f.time.getD (-1)).Nodup)
    (hacc : ∀ k ∈ acc.map Prod.fst,
      k ∉ (qualifyingSteps subfolders).map fun f => f.time.getD (-1)) :
    subfolders.foldl Simulation.summaryStep acc =
    acc ++ (qualifyingSteps subfolders).map (fun f => (f.time.getD (-1), f.nli.getD [])) := by
  induction subfolders generalizing acc with
  | nil => simp [qualifyingSteps]
  | cons f rest ih =>
    rw [List.foldl_cons]
    by_cases hq : f.time.getD (-1) < 0
    · have hqs : qualifyingSteps (f :: rest) = qualifyingSteps rest := by
        simp only [qualifyingSteps, List.filter_cons]
        rw [if_neg (by simpa using hq)]
      have hstep : Simulation.summaryStep acc f = acc := by
        simp only [Simulation.summaryStep]
        rw [if_pos hq]
      rw [hqs] at h hacc ⊢
      rw [hstep]
      exact ih acc h hacc
    · have hqs : qualifyingSteps (f :: rest) = f :: qualifyingSteps rest := by
        simp only [qualifyingSteps, List.filter_cons]
        rw [if_pos (by simpa using not_lt.mp hq)]
      rw [hqs] at h hacc ⊢
      simp only [List.map_cons, List.nodup_cons] at h
      have hnew : f.time.getD (-1) ∉ acc.map Prod.fst := by
        intro hmem
        exact hacc _ hmem (by simp)
      have hstep : Simulation.summaryStep acc f =
          acc ++ [(f.time.getD (-1), f.nli.getD [])] := by
        simp only [Simulation.summaryStep]
        rw [if_neg hq, dictSet_of_not_mem _ _ _ hnew]
      rw [hstep, ih (acc ++ [(f.time.getD (-1), f.nli.getD [])]) h.2 ?_]
      · simp
      · intro k hk
        simp only [List.map_append, List.mem_append] at hk
        rcases hk with hk | hk
        · intro hmem
          exact hacc _ hk (by simp [hmem])
        · simp only [List.map_cons, List.map_nil, List.mem_singleton] at hk
          rw [hk]
          simpa using h.1

/-- C10 amended: when the qualifying subfolders (those whose `time` metadata
is present and non-negative) carry pairwise distinct times, the mapping has
exactly one entry per qualifying subfolder, keyed by its time and valued
with its `nli` metadata (empty mapping when absent); subfolders with a
missing or negative `time` are silently excluded.  (Without the distinctness
hypothesis, a later subfolder with the same time overwrites the earlier
entry, so the entry count can be smaller than the qualifying-folder count.) -/
theorem Simulation.get_summary_stats_distinct_times (subfolders : List StepFolder)
    (h : ((qualifyingSteps subfolders).map fun f => f.time.getD (-1)).Nodup) :
    Simulation.get_summary_stats subfolders =
      (qualifyingSteps subfolders).map (fun f => (f.time.getD (-1), f.nli.getD [])) := by
  simpa [Simulation.get_summary_stats] using
    Simulation.get_summary_stats_go subfolders [] h (by simp)

/-- Witness for `Simulation.get_summary_stats_distinct_times`: three
subfolders — times `2` and `0`, and one with no time tag (skipped). -/
theorem Simulation.get_summary_stats_distinct_times_witness :
    Simulation.get_summary_stats
      [⟨some 2, some [("a", MVal.leaf 5)]⟩, ⟨none, some []⟩, ⟨some 0, none⟩] =
      [(2, [("a", MVal.leaf 5)]), (0, [])] := by
  have h := Simulation.get_summary_stats_distinct_times
    [⟨some 2, some [("a", MVal.leaf 5)]⟩, ⟨none, some []⟩, ⟨some 0, none⟩]
    (by norm_num [qualifyingSteps])
  rw [h]
  norm_num [qualifyingSteps]

/-- C10 counterexample: two qualifying subfolders sharing time `1` produce a
single entry (the later folder's `nli` wins), not one entry per qualifying
folder as the claim states. -/
theorem Simulation.get_summary_stats_duplicate_time :
    Simulation.get_summary_stats
      [⟨some 1, some [("a", MVal.leaf 1)]⟩, ⟨some 1, some [("a", MVal.leaf 2)]⟩] =
      [(1, [("a", MVal.leaf 2)])] ∧
    (Simulation.get_summary_stats
      [⟨some 1, some [("a", MVal.leaf 1)]⟩, ⟨some 1, some [("a", MVal.leaf 2)]⟩]).length ≠
      (qualifyingSteps
        [⟨some 1, some [("a", MVal.leaf 1)]⟩, ⟨some 1, some [("a", MVal.leaf 2)]⟩]).length := by
  constructor
  · rfl
  · decide

/-! ## Experiment summary aggregation (`models.py`, `Experiment.get_summary_stats`) -/

/-- `itertools.product`: the Cartesian product of a list of lists, the
leftmost list cycling slowest. -/
def iproduct {α : Type} : List (List α) → List (List α)
  | [] => [[]]
  | l :: ls => l.flatMap fun x => (iproduct ls).map (fun rest => x :: rest)

/-- The experiment metadata read by `Experiment.get_summary_stats`
(`models.py` lines 212-213): `experiment['meta']['experimental variables']`
and `experiment['meta']['runs per config']`. -/
structure ExpMeta where
  experimental_variables : List ExpVar
  runs_per_config : Nat

/-- `models.py` lines 218-236: the list of experimental treatments, each a
tuple of `(module, parameter, value)` triples, one treatment per point of
the Cartesian product of the experimental variables' value lists. -/
def experimental_group_params (evs : List ExpVar) : List (List (String × String × Scalar)) :=
  (iproduct (evs.map (fun e => e.values))).map fun param_values =>
    ((evs.map fun e => (e.module, e.parameter)).zip param_values).map fun x =>
      (x.1.1, x.1.2, x.2)

/-- `cfg[module][parameter]` on a concrete configuration.  (In the source a
missing key raises `KeyError`; children written by `run_experiment` always
carry every experimental variable's key, so the lookup is modelled as an
`Option` compared against the expected value.) -/
def configGet (cfg : Concrete) (m p : String) : Option Scalar :=
  (cfg.lookup m).bind fun inner => inner.lookup p

/-- `models.py` lines 271-274: does the child's concrete configuration agree
with a candidate treatment on every experimental variable? -/
def groupMatches (cfg : Concrete) (gp : List (String × String × Scalar)) : Bool :=
  gp.all fun x => configGet cfg x.1 x.2.1 == some x.2.2

/-- The group-assignment loop of `models.py` lines 267-276: each iteration
first writes the sentinel `-1`, then overwrites it with the group index and
breaks on the first match; so the recorded value is the first matching index
when one exists, `-1` when the group list is non-empty and nothing matches,
and no value at all (`none`) when the group list is empty. -/
def assignGroupAux (cfg : Concrete) : Nat → List (List (String × String × Scalar)) → Option Int
  | _, [] => none
  | i, g :: gs =>
    if groupMatches cfg g then some (Int.ofNat i)
    else
      match assignGroupAux cfg (i + 1) gs with
      | some r => some r
      | none => some (-1)

/-- The group recorded for one child by `Experiment.get_summary_stats`
(`models.py` lines 267-276). -/
def assignGroup (gps : List (List (String × String × Scalar))) (cfg : Concrete) : Option Int :=
  assignGroupAux cfg 0 gps

/-- One child folder of an experiment as read by
`Experiment.get_summary_stats`: its id and name, the `nli` flags checked by
the sanity test, its concrete configuration, and its checkpoint subfolders. -/
structure ChildSim where
  id : String
  name : String
  simulation : Bool
  in_experiment : Bool
  complete : Bool
  config : Concrete
  steps : List StepFolder

/-- The value types appearing in the dictionary returned by
`Experiment.get_summary_stats` (and the `simulation config` shape that
`get_experiment_csv` additionally expects of it). -/
inductive ExpStatVal where
  | groupParams (gs : List (List (String × String × Scalar)))
  | flag (b : Bool)
  | names (m : List (String × String))
  | count (n : Nat)
  | completion (m : List (String × Bool))
  | groupMap (m : List (String × Int))
  | stats (m : List (String × List (ℚ × List (String × MVal))))
  | configs (m : List (String × List (String × MVal)))
deriving Repr

namespace Experiment

/-- The per-child accumulator of the loop in `models.py` lines 239-279. -/
structure Acc where
  experiment_complete : Bool
  completion : List (String × Bool)
  stats : List (String × List (ℚ × List (String × MVal)))
  names : List (String × String)
  groups : List (String × Int)

/-- The loop body of `Experiment.get_summary_stats` (`models.py` lines
251-279): skip folders failing the sanity check, then record name,
completion (and fold it into `experiment_complete`), group assignment and
per-simulation statistics, each keyed by the folder id. -/
def summaryChildStep (egp : List (List (String × String × Scalar))) (a : Acc)
    (folder : ChildSim) : Acc :=
  if !(folder.simulation && folder.in_experiment) then a
  else
    { experiment_complete := a.experiment_complete && folder.complete
      names := dictSet a.names folder.id folder.name
      completion := dictSet a.completion folder.id folder.complete
      groups :=
        match assignGroup egp folder.config with
        | some g => dictSet a.groups folder.id g
        | none => a.groups
      stats := dictSet a.stats folder.id (Simulation.get_summary_stats folder.steps) }

/-- `models.py` lines 209-289: the experiment summary — the dictionary
returned at lines 281-289, with exactly the keys
`experimental_group_params`, `experiment_complete`, `names`,
`runs_per_config`, `simulation completion`, `simulation group map`,
`stats`. -/
def get_summary_stats (meta : ExpMeta) (children : List ChildSim) :
    List (String × ExpStatVal) :=
  let egp := experimental_group_params meta.experimental_variables
  let acc := children.foldl (summaryChildStep egp) ⟨true, [], [], [], []⟩
  [("experimental_group_params", ExpStatVal.groupParams egp),
   ("experiment_complete", ExpStatVal.flag acc.experiment_complete),
   ("names", ExpStatVal.names acc.names),
   ("runs_per_config", ExpStatVal.count meta.runs_per_config),
   ("simulation completion", ExpStatVal.completion acc.completion),
   ("simulation group map", ExpStatVal.groupMap acc.groups),
   ("stats", ExpStatVal.stats acc.stats)]

end Experiment

/-- Projection of the `simulation group map` entry out of the experiment
summary dictionary. -/
def lookupGroupMap (ret : List (String × ExpStatVal)) : Option (List (String × Int)) :=
  match ret.lookup "simulation group map" with
  | some (ExpStatVal.groupMap m) => some m
  | _ => none

/-- The first matching treatment index, following the claim's words ("first
matching group in Cartesian-product order") — the spec-side definition
compared against the code's `assignGroup`. -/
def firstMatchingGroup (cfg : Concrete) : List (List (String × String × Scalar)) → Option Nat
  | [] => none
  | g :: gs =>
    if groupMatches cfg g then some 0
    else (firstMatchingGroup cfg gs).map (fun n => n + 1)

theorem assignGroupAux_spec (cfg : Concrete) (gps : List (List (String × String × Scalar)))
    (i : Nat) :
    assignGroupAux cfg i gps =
      match firstMatchingGroup cfg gps with
      | some j => some (Int.ofNat (i + j))
      | none => if gps.isEmpty then none else some (-1) := by
  induction gps generalizing i with
  | nil => rfl
  | cons g gs ih =>
    by_cases hm : groupMatches cfg g
    · simp [assignGroupAux, firstMatchingGroup, hm]
    · simp only [assignGroupAux, firstMatchingGroup, hm, Bool.false_eq_true, if_false,
        ih (i + 1)]
      cases hf : firstMatchingGroup cfg gs with
      | some j =>
        have h2 : i + 1 + j = i + (j + 1) := by omega
        simp [h2]
      | none =>
        cases gs with
        | nil => rfl
        | cons g' gs' => simp

/-- C6 amended: each child simulation is assigned to the first matching
treatment (Cartesian-product order, first match wins); a child whose
configuration matches no treatment is silently assigned the sentinel group
`-1` (when at least one treatment exists) rather than raising any
`AggregationIntegrityError`; with no treatments at all no group is recorded. -/
theorem assignGroup_first_match_or_sentinel (gps : List (List (String × String × Scalar)))
    (cfg : Concrete) :
    assignGroup gps cfg =
      match firstMatchingGroup cfg gps with
      | some j => some (Int.ofNat j)
      | none => if gps.isEmpty then none else some (-1) := by
  simpa using assignGroupAux_spec cfg gps 0

/-- C6 counterexample: a child whose configuration (`m.p = 3`) matches no
treatment of the experimental variable `m.p ∈ {1, 2}` is recorded in the
`simulation group map` with the sentinel `-1` and the aggregation returns
normally — no data-integrity error is surfaced. -/
theorem experiment_no_match_records_sentinel :
    lookupGroupMap (Experiment.get_summary_stats
      ⟨[⟨"m", "p", [Scalar.int 1, Scalar.int 2]⟩], 1⟩
      [⟨"c1", "sim", true, true, false, [("m", [("p", Scalar.int 3)])], []⟩]) =
      some [("c1", -1)] := rfl

/-! ## The tabular (CSV) experiment summary (`api.py`, `get_experiment_csv`)

The renderer is modelled as producing the list of CSV rows (each row a list
of cell strings, numeric cells rendered via `toString`); a raised exception
(`KeyError`) is modelled as `none`. -/

/-- `api.py` lines 124-138, `flatten_dict`: recursively flatten a nested
mapping to dotted key/value pairs. -/
def flatten_dict : List (String × MVal) → List String → List (String × ℚ)
  | [], _ => []
  | (k, MVal.dict sub) :: rest, pre => flatten_dict sub (pre ++ [k]) ++ flatten_dict rest pre
  | (k, MVal.leaf q) :: rest, pre => (String.intercalate "." (pre ++ [k]), q) :: flatten_dict rest pre

/-- Python's ordering on lists of `(str, float)` tuples, used as the sort
key for simulation ids (`api.py` lines 512-514). -/
def pairListLe : List (String × ℚ) → List (String × ℚ) → Bool
  | [], _ => true
  | _ :: _, [] => false
  | a :: as, b :: bs =>
    if a.1 < b.1 then true
    else if b.1 < a.1 then false
    else if a.2 < b.2 then true
    else if b.2 < a.2 then false
    else pairListLe as bs

/-- `api.py` lines 495-581, `get_experiment_csv`, applied to the dictionary
produced by `Experiment.get_summary_stats`:
collect the union of the children's time steps sorted numerically (lines
500-508), read `experiment_stats['simulation config']` (line 511 — a
`KeyError`, since `get_summary_stats` returns no such key), bail out with an
empty document when there is no data (line 519), derive the statistic
columns from the first simulation at the first time step (lines 522-528 —
a `KeyError` when that simulation lacks the first time step), then emit the
pre-header, the name header, the column header and one data row per time
step, a child missing a time step contributing `num_vars` empty cells
(lines 530-581). -/
def get_experiment_csv (ret : List (String × ExpStatVal)) : Option (List (List String)) :=
  match ret.lookup "stats" with
  | some (ExpStatVal.stats stats) =>
    let time_steps :=
      ((stats.flatMap fun sd => sd.2.map Prod.fst).dedup).mergeSort (fun a b => a ≤ b)
    match ret.lookup "simulation config" with
    | some (ExpStatVal.configs simconfigs) =>
      let simulation_ids :=
        (simconfigs.map Prod.fst).mergeSort fun a b =>
          pairListLe
            (flatten_dict ((simconfigs.lookup a).getD []) [])
            (flatten_dict ((simconfigs.lookup b).getD []) [])
      let num_simulations := simulation_ids.length
      if time_steps.length ≤ 0 ∨ num_simulations ≤ 0 then some []
      else
        match simulation_ids, time_steps with
        | sid0 :: _, t0 :: _ =>
          match (stats.lookup sid0).bind fun s0 => s0.lookup t0 with
          | none => none
          | some d0 =>
            let per_sim_variables := (flatten_dict d0 []).map Prod.fst
            let num_vars := per_sim_variables.length
            match ret.lookup "names" with
            | some (ExpStatVal.names namesMap) =>
              (simulation_ids.mapM fun sid =>
                  (simconfigs.lookup sid).bind fun cfg =>
                    (namesMap.lookup sid).map fun nm =>
                      (flatten_dict cfg []).enum.map fun x =>
                        [if x.1 = 0 then nm else "", x.2.1, toString x.2.2]).bind
                fun preRows =>
              (simulation_ids.mapM fun sid =>
                  (namesMap.lookup sid).map fun nm =>
                    nm :: List.replicate (num_vars - 1) "").bind
                fun nameSegs =>
              (time_steps.mapM fun t =>
                  (simulation_ids.mapM fun sid =>
                      (stats.lookup sid).map fun sstats =>
                        match sstats.lookup t with
                        | some d => (flatten_dict d []).map fun kv => toString kv.2
                        | none => List.replicate num_vars "").map
                    fun cells => toString t :: cells.flatten).map
                fun dataRows =>
              (["Simulation Name", "Parameter", "Value"] :: preRows.flatten) ++
                ("" :: nameSegs.flatten) ::
                ("time" :: (List.replicate num_simulations per_sim_variables).flatten) ::
                dataRows
            | _ => none
        | _, _ => none
    | _ => none
  | _ => none

/-- C3: the tabular rendering never succeeds — for every experiment (any
metadata, any children, in particular any experiment with a child holding a
recorded time step), `get_experiment_csv` fails with a `KeyError`, because
it reads `experiment_stats['simulation config']` (`api.py` line 511) and
`Experiment.get_summary_stats` returns no `simulation config` key. -/
theorem get_experiment_csv_always_fails (meta : ExpMeta) (children : List ChildSim) :
    get_experiment_csv (Experiment.get_summary_stats meta children) = none := rfl

/-! ## Run naming (`api.py`, `run_experiment` lines 308-325)

`run_name = name + "-run-" + str(run_number).zfill(max_run_digit_len)`
followed by `-<module>.<parameter>-<value>` per experimental variable.
Names are modelled as `List Char`; Python's `str`/`zfill` on the
non-negative run index are modelled by a verified decimal rendering. -/

/-- The numeric value of a decimal digit character. -/
def digitVal (c : Char) : Nat := c.toNat - 48

/-- Fuel-indexed decimal rendering of a natural number (most significant
digit first); the fuel only bounds the recursion depth. -/
def natStrAux : Nat → Nat → List Char
  | 0, _ => []
  | fuel + 1, n =>
    if n < 10 then [Nat.digitChar n]
    else natStrAux fuel (n / 10) ++ [Nat.digitChar (n % 10)]

/-- Python `str(n)` for a non-negative integer. -/
def natStr (n : Nat) : List Char := natStrAux (n + 1) n

/-- The numeric reading of a digit string (used by the round-trip parser). -/
def digitsToNat (cs : List Char) : Nat := cs.foldl (fun a c => 10 * a + digitVal c) 0

/-- Python `str.zfill(w)` on a sign-free string: pad with `'0'` on the left
up to width `w`. -/
def zfill (w : Nat) (cs : List Char) : List Char := List.replicate (w - cs.length) '0' ++ cs

/-- Python `str(value)` for a scalar configuration value. -/
def pyStr : Scalar → List Char
  | Scalar.int n => if n < 0 then '-' :: natStr n.natAbs else natStr n.natAbs
  | Scalar.str s => s.data
  | Scalar.bool b => if b then "True".data else "False".data

/-- The `-<module>.<parameter>-<value>` block appended per experimental
variable (`api.py` lines 313-325). -/
def varBlock (m p : String) (v : Scalar) : List Char :=
  ('-' :: m.data) ++ ('.' :: p.data) ++ ('-' :: pyStr v)

/-- The run name built by `run_experiment` (`api.py` lines 308-325) from the
base name, the zero-padded run index, and the experimental variables (in
discovery order) with the values the concrete configuration assigns them. -/
def run_name (base : String) (w : Nat) (run_number : Nat)
    (evs : List (String × String)) (vals : List Scalar) : List Char :=
  base.data ++ "-run-".data ++ zfill w (natStr run_number) ++
    ((evs.zip vals).map fun x => varBlock x.1.1 x.1.2 x.2).flatten

theorem digitVal_digitChar : ∀ d, d < 10 → digitVal (Nat.digitChar d) = d := by decide

theorem natStrAux_foldl (fuel : Nat) : ∀ n, n < 10 ^ fuel → ∀ a,
    (natStrAux fuel n).foldl (fun acc c => 10 * acc + digitVal c) a =
      a * 10 ^ (natStrAux fuel n).length + n := by
  induction fuel with
  | zero =>
    intro n hn a
    rw [pow_zero] at hn
    have h0 : n = 0 := by omega
    subst h0
    simp [natStrAux]
  | succ fuel ih =>
    intro n hn a
    by_cases h10 : n < 10
    · rw [natStrAux, if_pos h10]
      show 10 * a + digitVal (Nat.digitChar n) = a * 10 ^ ([Nat.digitChar n].length) + n
      rw [digitVal_digitChar n h10]
      simp
      ring
    · rw [natStrAux, if_neg h10, List.foldl_append]
      have hdiv : n / 10 < 10 ^ fuel := by
        rw [Nat.div_lt_iff_lt_mul (by norm_num)]
        calc n < 10 ^ (fuel + 1) := hn
          _ = 10 ^ fuel * 10 := by ring
      rw [ih (n / 10) hdiv a]
      show 10 * (a * 10 ^ (natStrAux fuel (n / 10)).length + n / 10) +
          digitVal (Nat.digitChar (n % 10)) =
        a * 10 ^ ((natStrAux fuel (n / 10) ++ [Nat.digitChar (n % 10)]).length) + n
      rw [digitVal_digitChar _ (Nat.mod_lt n (by norm_num)), List.length_append]
      show _ = a * 10 ^ ((natStrAux fuel (n / 10)).length + 1) + n
      rw [pow_succ, ← mul_assoc]
      generalize a * 10 ^ (natStrAux fuel (n / 10)).length = K
      omega

theorem natStrAux_length_le (fuel : Nat) : ∀ n w, n < 10 ^ w → 0 < w →
    (natStrAux fuel n).length ≤ w := by
  induction fuel with
  | zero =>
    intro n w _ hw
    simp [natStrAux]
  | succ fuel ih =>
    intro n w hn hw
    by_cases h10 : n < 10
    · rw [natStrAux, if_pos h10]
      simpa using hw
    · rw [natStrAux, if_neg h10]
      simp only [List.length_append, List.length_cons, List.length_nil]
      have hw2 : 2 ≤ w := by
        by_contra hcon
        have hw1 : w = 1 := by omega
        subst hw1
        rw [pow_one] at hn
        omega
      have hpow : 10 ^ (w - 1) * 10 = 10 ^ w := by
        rw [← pow_succ]
        congr 1
        omega
      have hdiv : n / 10 < 10 ^ (w - 1) := by
        rw [Nat.div_lt_iff_lt_mul (by norm_num), hpow]
        exact hn
      have := ih (n / 10) (w - 1) hdiv (by omega)
      omega

theorem nat_lt_ten_pow_succ (n : Nat) : n < 10 ^ (n + 1) := by
  calc n < 2 ^ n := Nat.lt_two_pow n
    _ ≤ 10 ^ n := Nat.pow_le_pow_left (by norm_num) n
    _ < 10 ^ (n + 1) := Nat.pow_lt_pow_succ (by norm_num)

theorem digitsToNat_natStr (n : Nat) : digitsToNat (natStr n) = n := by
  have h := natStrAux_foldl (n + 1) n (nat_lt_ten_pow_succ n) 0
  simpa [digitsToNat, natStr] using h

theorem natStr_length_le {n w : Nat} (hn : n < 10 ^ w) (hw : 0 < w) :
    (natStr n).length ≤ w :=
  natStrAux_length_le (n + 1) n w hn hw

theorem zfill_length {w : Nat} {cs : List Char} (h : cs.length ≤ w) :
    (zfill w cs).length = w := by
  simp only [zfill, List.length_append, List.length_replicate]
  omega

theorem foldl_digits_replicate_zero (k : Nat) :
    (List.replicate k '0').foldl (fun acc c => 10 * acc + digitVal c) 0 = 0 := by
  induction k with
  | zero => rfl
  | succ k ih =>
    rw [List.replicate_succ, List.foldl_cons]
    have h0 : 10 * 0 + digitVal '0' = 0 := rfl
    rw [h0]
    exact ih

theorem digitsToNat_zfill (w : Nat) (cs : List Char) :
    digitsToNat (zfill w cs) = digitsToNat cs := by
  rw [zfill, digitsToNat, digitsToNat, List.foldl_append, foldl_digits_replicate_zero]

/-! ### The round-trip parser (spec-side, from the claim's words)

`parseRunName` recovers the run index and the rendered value of each
experimental variable from a generated run name, given the base name, the
index width and the variable names. -/

/-- Strip an expected literal prefix, failing when absent. -/
def dropExpect (pat s : List Char) : Option (List Char) :=
  if s.take pat.length = pat then some (s.drop pat.length) else none

/-- Split off the longest dash-free prefix (a rendered value). -/
def spanNoDash : List Char → List Char × List Char
  | [] => ([], [])
  | c :: rest =>
    if c = '-' then ([], c :: rest)
    else
      let x := spanNoDash rest
      (c :: x.1, x.2)

/-- Parse the `-<module>.<parameter>-<value>` blocks for the given
experimental variables, in order. -/
def parseVars : List (String × String) → List Char → Option (List (List Char))
  | [], s => if s = [] then some [] else none
  | (m, p) :: evs, s =>
    (dropExpect (('-' :: m.data) ++ ('.' :: p.data) ++ ['-']) s).bind fun s1 =>
      match spanNoDash s1 with
      | (val, s2) => (parseVars evs s2).map fun rest => val :: rest

/-- Parse a run name back into its run index and rendered variable values. -/
def parseRunName (base : String) (w : Nat) (evs : List (String × String)) (s : List Char) :
    Option (Nat × List (List Char)) :=
  (dropExpect (base.data ++ "-run-".data) s).bind fun s1 =>
    (parseVars evs (s1.drop w)).map fun vss => (digitsToNat (s1.take w), vss)

theorem dropExpect_append (pat rest : List Char) : dropExpect pat (pat ++ rest) = some rest := by
  simp [dropExpect, List.take_left, List.drop_left]

theorem spanNoDash_append (v r : List Char) (hv : '-' ∉ v)
    (hr : r = [] ∨ ∃ t, r = '-' :: t) :
    spanNoDash (v ++ r) = (v, r) := by
  induction v with
  | nil =>
    rcases hr with h | ⟨t, h⟩ <;> subst h <;> simp [spanNoDash]
  | cons c v ih =>
    have hc : c ≠ '-' := fun h => hv (h ▸ List.mem_cons_self c v)
    have hv' : '-' ∉ v := fun h => hv (List.mem_cons_of_mem c h)
    simp [spanNoDash, hc, ih hv']

theorem varBlock_decompose (m p : String) (v : Scalar) (r : List Char) :
    varBlock m p v ++ r =
      ((('-' :: m.data) ++ ('.' :: p.data) ++ ['-'])) ++ (pyStr v ++ r) := by
  simp [varBlock, List.append_assoc]

theorem parseVars_roundtrip (evs : List (String × String)) (vals : List Scalar)
    (hlen : evs.length = vals.length)
    (hdash : ∀ v ∈ vals, '-' ∉ pyStr v) :
    parseVars evs (((evs.zip vals).map fun x => varBlock x.1.1 x.1.2 x.2).flatten) =
      some (vals.map pyStr) := by
  induction evs generalizing vals with
  | nil =>
    cases vals with
    | nil => rfl
    | cons v vs => simp at hlen
  | cons ev evs ih =>
    cases vals with
    | nil => simp at hlen
    | cons v vs =>
      have hlen' : evs.length = vs.length := by simpa using hlen
      have hdv : '-' ∉ pyStr v := hdash v (List.mem_cons_self v vs)
      have hdvs : ∀ u ∈ vs, '-' ∉ pyStr u := fun u hu => hdash u (List.mem_cons_of_mem v hu)
      cases ev with
      | mk m p =>
        rw [List.zip_cons_cons, List.map_cons, List.flatten_cons]
        rw [varBlock_decompose]
        rw [parseVars, dropExpect_append]
        have hrest : (((evs.zip vs).map fun x => varBlock x.1.1 x.1.2 x.2).flatten) = [] ∨
            ∃ t, (((evs.zip vs).map fun x => varBlock x.1.1 x.1.2 x.2).flatten) = '-' :: t := by
          cases evs with
          | nil => left; rfl
          | cons ev' evs' =>
            cases vs with
            | nil => simp at hlen'
            | cons v' vs' =>
              right
              cases ev' with
              | mk m' p' =>
                refine ⟨(m'.data ++ ('.' :: p'.data) ++ ('-' :: pyStr v')) ++
                  (((evs'.zip vs').map fun x => varBlock x.1.1 x.1.2 x.2).flatten), ?_⟩
                rw [List.zip_cons_cons, List.map_cons, List.flatten_cons]
                simp [varBlock]
        simp only [Option.some_bind]
        rw [spanNoDash_append _ _ hdv hrest]
        simp only [ih vs hlen' hdvs, List.map_cons]
        rfl

theorem parseRunName_roundtrip (base : String) (w idx : Nat) (evs : List (String × String))
    (vals : List Scalar) (hw : 0 < w) (hidx : idx < 10 ^ w)
    (hlen : evs.length = vals.length) (hdash : ∀ v ∈ vals, '-' ∉ pyStr v) :
    parseRunName base w evs (run_name base w idx evs vals) = some (idx, vals.map pyStr) := by
  have hzlen : (zfill w (natStr idx)).length = w := zfill_length (natStr_length_le hidx hw)
  rw [parseRunName, run_name]
  rw [List.append_assoc (base.data ++ "-run-".data)]
  rw [dropExpect_append, Option.some_bind]
  rw [List.take_left' hzlen, List.drop_left' hzlen]
  rw [parseVars_roundtrip evs vals hlen hdash, digitsToNat_zfill, digitsToNat_natStr]
  rfl

/-- C9 amended: run names are round-trip parseable into (base, run index,
rendered experimental-variable values), and two run names generated in one
invocation (same base, same index width, same experimental variables) are
distinct whenever the (run index, rendered value strings) pairs are
distinct — provided each value's string rendering `str(value)` contains no
`'-'` character (the counterexample shows the claim fails without this
proviso). -/
theorem run_name_roundtrip_and_injective (base : String) (w : Nat)
    (evs : List (String × String)) (idx1 idx2 : Nat) (vals1 vals2 : List Scalar)
    (hw : 0 < w) (h1 : idx1 < 10 ^ w) (h2 : idx2 < 10 ^ w)
    (hlen1 : evs.length = vals1.length) (hlen2 : evs.length = vals2.length)
    (hd1 : ∀ v ∈ vals1, '-' ∉ pyStr v) (hd2 : ∀ v ∈ vals2, '-' ∉ pyStr v) :
    parseRunName base w evs (run_name base w idx1 evs vals1) = some (idx1, vals1.map pyStr) ∧
    (run_name base w idx1 evs vals1 = run_name base w idx2 evs vals2 →
      idx1 = idx2 ∧ vals1.map pyStr = vals2.map pyStr) := by
  refine ⟨parseRunName_roundtrip base w idx1 evs vals1 hw h1 hlen1 hd1, fun heq => ?_⟩
  have hp1 := parseRunName_roundtrip base w idx1 evs vals1 hw h1 hlen1 hd1
  have hp2 := parseRunName_roundtrip base w idx2 evs vals2 hw h2 hlen2 hd2
  rw [heq, hp2] at hp1
  have h3 : (idx2, List.map pyStr vals2) = (idx1, List.map pyStr vals1) := Option.some.inj hp1
  exact ⟨(congrArg Prod.fst h3).symm, (congrArg Prod.snd h3).symm⟩

/-- Witness for `run_name_roundtrip_and_injective` at base `"a"`, width 1,
one experimental variable `m.p` with integer value 3. -/
theorem run_name_roundtrip_witness :
    parseRunName "a" 1 [("m", "p")] (run_name "a" 1 0 [("m", "p")] [Scalar.int 3]) =
      some (0, [pyStr (Scalar.int 3)]) :=
  (run_name_roundtrip_and_injective "a" 1 [("m", "p")] 0 0 [Scalar.int 3] [Scalar.int 3]
    (by decide) (by decide) (by decide) (by decide) (by decide)
    (by decide) (by decide)).1

/-- C9 counterexample: within one invocation on the document
`{m: {p: ["a-n.q-x", "a"]}, n: {q: ["y", "x-n.q-y"]}}` (both value
assignments below occur among its concrete configurations), two distinct
experimental-variable assignments yield the very same run name, and that
name cannot be unambiguously parsed back: the claim's uniqueness and
round-trip properties fail for string values containing separator
substrings. -/
theorem run_name_collision :
    run_name "e" 1 0 [("m", "p"), ("n", "q")] [Scalar.str "a-n.q-x", Scalar.str "y"] =
      run_name "e" 1 0 [("m", "p"), ("n", "q")] [Scalar.str "a", Scalar.str "x-n.q-y"] ∧
    [Scalar.str "a-n.q-x", Scalar.str "y"] ≠ [Scalar.str "a", Scalar.str "x-n.q-y"] ∧
    [("m", [("p", Scalar.str "a-n.q-x")]), ("n", [("q", Scalar.str "y")])] ∈
      (expand_configs
        [("m", [("p", ParamValue.list [Scalar.str "a-n.q-x", Scalar.str "a"])]),
         ("n", [("q", ParamValue.list [Scalar.str "y", Scalar.str "x-n.q-y"])])]).1 ∧
    [("m", [("p", Scalar.str "a")]), ("n", [("q", Scalar.str "x-n.q-y")])] ∈
      (expand_configs
        [("m", [("p", ParamValue.list [Scalar.str "a-n.q-x", Scalar.str "a"])]),
         ("n", [("q", ParamValue.list [Scalar.str "y", Scalar.str "x-n.q-y"])])]).1 := by
  refine ⟨?_, ?_, ?_, ?_⟩ <;> decide

/-! ## The run executor (`tasks.py`, `run_simulation` lines 87-167)

The executor is modelled as an interpreter over an oracle environment: each
external call (initialization, status reports, the engine iterator, the
cancellation polls, the artifact uploads) is decided by the environment,
`none` meaning success and `some e` a raised exception `e`.  The interpreter
returns the ordered trace of observable side effects together with the
outcome. -/

/-- An exception identity. -/
abbrev Exc := String

/-- One `(state, status)` pair yielded by the engine's `run_iterator`: the
simulated time `state.time` and whether `status == Status.finalize`. -/
structure EngineStep where
  time : ℚ
  final : Bool

/-- The outcomes of the external calls made during one loop iteration: the
cancellation poll result, the artifact render/upload, and the per-checkpoint
status report. -/
structure IterOracle where
  cancelled : Bool
  uploadResult : Option Exc
  statusResult : Option Exc

/-- The oracle environment deciding every external call of one
`run_simulation` invocation. -/
structure RunEnv where
  initResult : Option Exc
  firstStatusResult : Option Exc
  iters : List (EngineStep × IterOracle)
  iterTailRaise : Option Exc
  finalizeResult : Option Exc
  lastStatusResult : Option Exc
  errorStatusResult : Option Exc

/-- The observable side effects of the executor, in order. -/
inductive Event where
  | initDone
  | statusSet (st : JobState) (current total : ℚ)
  | statusSetFailed (st : JobState) (current total : ℚ)
  | cancelPolled (result : Bool)
  | uploaded (name : List Char) (time : ℚ)
  | finalized
  | loggedStatusError
deriving DecidableEq, Repr

/-- How the advance loop ends: normal completion, an early `return
simulation` (cancellation observed, or a checkpoint status report that
fails), or an exception carrying the `current_time` at the raise point. -/
inductive LoopExit where
  | completed (cur : ℚ)
  | earlyReturn
  | raised (e : Exc) (cur : ℚ)
deriving DecidableEq, Repr

/-- The advance loop of `run_simulation` (`tasks.py` lines 122-154):
for each engine state, poll cancellation (early return when cancelled), set
`current_time = state.time`, and when
`current_time >= visualize_interval + previous_time` (with `previous_time`
initialized to `float('-inf')`, modelled `none`) upload a checkpoint named
`'%04i' % time_step` (or `'final'`) and report RUNNING progress — a failing
report being caught and turned into an early return.  The trailing
`Option Exc` models the engine iterator raising after its listed yields. -/
def runLoop (v T : ℚ) : ℚ → Option ℚ → Nat → List (EngineStep × IterOracle) → Option Exc →
    List Event × LoopExit
  | cur, _, _, [], none => ([], LoopExit.completed cur)
  | cur, _, _, [], some e => ([], LoopExit.raised e cur)
  | _, prev, k, (st, o) :: rest, tailRaise =>
    if o.cancelled then ([Event.cancelPolled true], LoopExit.earlyReturn)
    else
      if (match prev with | none => true | some p => decide (v + p ≤ st.time)) then
        let stepName := if st.final then "final".data else zfill 4 (natStr k)
        match o.uploadResult with
        | some e => ([Event.cancelPolled false], LoopExit.raised e st.time)
        | none =>
          match o.statusResult with
          | some _ =>
            ([Event.cancelPolled false, Event.uploaded stepName st.time,
              Event.statusSetFailed JobState.running st.time T], LoopExit.earlyReturn)
          | none =>
            let x := runLoop v T st.time (some st.time) (k + 1) rest tailRaise
            (Event.cancelPolled false :: Event.uploaded stepName st.time ::
              Event.statusSet JobState.running st.time T :: x.1, x.2)
      else
        let x := runLoop v T st.time prev k rest tailRaise
        (Event.cancelPolled false :: x.1, x.2)

/-- How the `try` block of `run_simulation` ends: a normal or early
`return simulation`, or an exception escaping with the `current_time` at the
raise point. -/
inductive BodyResult where
  | returned
  | raised (e : Exc) (cur : ℚ)
deriving DecidableEq, Repr

/-- The `try` block of `run_simulation` (`tasks.py` lines 112-158):
initialization (line 113, may raise with `current_time = 0`), the first
RUNNING status report (lines 116-120, a failure meaning the run was already
cancelled and returning without error), the advance loop, then finalization
(line 156, may raise) and the final SUCCESS report with
`current = total = target_time` (line 157, may raise). -/
def run_body (v T : ℚ) (env : RunEnv) : List Event × BodyResult :=
  match env.initResult with
  | some e => ([], BodyResult.raised e 0)
  | none =>
    match env.firstStatusResult with
    | some _ =>
      ([Event.initDone, Event.statusSetFailed JobState.running 0 T], BodyResult.returned)
    | none =>
      let pre := [Event.initDone, Event.statusSet JobState.running 0 T]
      match runLoop v T 0 none 0 env.iters env.iterTailRaise with
      | (evs, LoopExit.earlyReturn) => (pre ++ evs, BodyResult.returned)
      | (evs, LoopExit.raised e t) => (pre ++ evs, BodyResult.raised e t)
      | (evs, LoopExit.completed t) =>
        match env.finalizeResult with
        | some e => (pre ++ evs, BodyResult.raised e t)
        | none =>
          match env.lastStatusResult with
          | some e => (pre ++ evs ++ [Event.finalized], BodyResult.raised e t)
          | none =>
            (pre ++ evs ++ [Event.finalized, Event.statusSet JobState.success T T],
              BodyResult.returned)

/-- `tasks.py` lines 87-167: the whole executor — the `try` block wrapped in
the `except Exception` handler of lines 159-164, which attempts to report
status ERROR with the last known `current_time` (itself possibly failing,
in which case the failure is logged) and then re-raises the original
exception. -/
def run_simulation (v T : ℚ) (env : RunEnv) : List Event × Except Exc Unit :=
  match run_body v T env with
  | (evs, BodyResult.returned) => (evs, Except.ok ())
  | (evs, BodyResult.raised e t) =>
    match env.errorStatusResult with
    | none => (evs ++ [Event.statusSet JobState.error t T], Except.error e)
    | some _ =>
      (evs ++ [Event.statusSetFailed JobState.error t T, Event.loggedStatusError],
        Except.error e)

/-- The checkpoint-time selection implicit in the loop (`tasks.py` lines
122-123 and 130-132), as a pure function of the visualization interval and
the engine state times. -/
def checkpointsAux (v : ℚ) : Option ℚ → List ℚ → List ℚ
  | _, [] => []
  | prev, t :: ts =>
    if (match prev with | none => true | some p => decide (v + p ≤ t)) then
      t :: checkpointsAux v (some t) ts
    else
      checkpointsAux v prev ts

/-- The checkpoint times of a run over the given state times, starting from
`previous_time = -inf`. -/
def checkpointTimes (v : ℚ) (ts : List ℚ) : List ℚ := checkpointsAux v none ts

/-- The times of the uploaded checkpoints in an event trace. -/
def uploadTimes (evs : List Event) : List ℚ :=
  evs.filterMap fun e =>
    match e with
    | Event.uploaded _ t => some t
    | _ => none

/-- A clean iteration oracle: no cancellation and no failing upload or
status call — the loop of a run that completes undisturbed. -/
def cleanIters (its : List (EngineStep × IterOracle)) : Prop :=
  ∀ i ∈ its, i.2.cancelled = false ∧ i.2.uploadResult = none ∧ i.2.statusResult = none

theorem runLoop_clean_uploadTimes (v T : ℚ) (its : List (EngineStep × IterOracle))
    (h : cleanIters its) :
    ∀ cur prev k,
      uploadTimes (runLoop v T cur prev k its none).1 =
        checkpointsAux v prev (its.map fun i => i.1.time) := by
  induction its with
  | nil => intro cur prev k; rfl
  | cons i rest ih =>
    intro cur prev k
    obtain ⟨hc, hu, hs⟩ := h i (List.mem_cons_self i rest)
    have hrest : cleanIters rest := fun j hj => h j (List.mem_cons_of_mem i hj)
    cases i with
    | mk st o =>
      simp only at hc hu hs
      cases hg : (match prev with | none => true | some p => decide (v + p ≤ st.time)) with
      | true =>
        simp only [runLoop, hc, hu, hs, hg, Bool.false_eq_true, if_false, if_true,
          List.map_cons, checkpointsAux]
        simp only [uploadTimes, List.filterMap_cons]
        rw [← uploadTimes, ih hrest st.time (some st.time) (k + 1)]
      | false =>
        simp only [runLoop, hc, hu, hs, hg, Bool.false_eq_true, if_false,
          List.map_cons, checkpointsAux]
        simp only [uploadTimes, List.filterMap_cons]
        rw [← uploadTimes, ih hrest st.time prev k]

theorem checkpointsAux_chain (v : ℚ) (ts : List ℚ) :
    ∀ prev : Option ℚ,
      List.Chain' (fun a b => a + v ≤ b) (prev.toList ++ checkpointsAux v prev ts) := by
  induction ts with
  | nil => intro prev; cases prev <;> simp [checkpointsAux]
  | cons t ts ih =>
    intro prev
    cases prev with
    | none =>
      have h := ih (some t)
      simpa [checkpointsAux] using h
    | some p =>
      by_cases hg : v + p ≤ t
      · have h := ih (some t)
        simp only [Option.toList_some, List.singleton_append] at h ⊢
        simp only [checkpointsAux, decide_eq_true_eq]
        rw [if_pos hg]
        exact List.chain'_cons.mpr ⟨by linarith, h⟩
      · have h := ih (some p)
        simp only [Option.toList_some, List.singleton_append] at h ⊢
        simp only [checkpointsAux, decide_eq_true_eq]
        rw [if_neg hg]
        exact h

theorem checkpointTimes_chain (v : ℚ) (ts : List ℚ) :
    List.Chain' (fun a b => a + v ≤ b) (checkpointTimes v ts) := by
  simpa [checkpointTimes] using checkpointsAux_chain v ts none

theorem uploadTimes_append (a b : List Event) :
    uploadTimes (a ++ b) = uploadTimes a ++ uploadTimes b := by
  simp [uploadTimes, List.filterMap_append]

theorem run_simulation_uploadTimes_eq (v T : ℚ) (env : RunEnv)
    (hinit : env.initResult = none) (hfirst : env.firstStatusResult = none) :
    uploadTimes (run_simulation v T env).1 =
      uploadTimes (runLoop v T 0 none 0 env.iters env.iterTailRaise).1 := by
  rcases hloop : runLoop v T 0 none 0 env.iters env.iterTailRaise with ⟨evs, r⟩
  have hpre : uploadTimes [Event.initDone, Event.statusSet JobState.running 0 T] = [] := rfl
  cases r with
  | earlyReturn =>
    simp [run_simulation, run_body, hinit, hfirst, hloop, uploadTimes_append, hpre, uploadTimes]
  | raised e t =>
    cases herr : env.errorStatusResult <;>
      simp [run_simulation, run_body, hinit, hfirst, hloop, herr, uploadTimes_append, hpre,
        uploadTimes]
  | completed t =>
    cases hfin : env.finalizeResult with
    | some e =>
      cases herr : env.errorStatusResult <;>
        simp [run_simulation, run_body, hinit, hfirst, hloop, hfin, herr, uploadTimes_append,
          hpre, uploadTimes]
    | none =>
      cases hlast : env.lastStatusResult with
      | some e =>
        cases herr : env.errorStatusResult <;>
          simp [run_simulation, run_body, hinit, hfirst, hloop, hfin, hlast, herr,
            uploadTimes_append, hpre, uploadTimes]
      | none =>
        simp [run_simulation, run_body, hinit, hfirst, hloop, hfin, hlast,
          uploadTimes_append, hpre, uploadTimes]

/-- C5: for a run with visualization interval `v > 0` over a finite engine
state sequence with non-decreasing times that completes undisturbed (no
cancellation and no failing upload or status call during the loop), the
uploaded checkpoint times are exactly the ones selected by the policy
`t` is checkpointed iff `t ≥ v + (previous checkpoint time)` with the
previous time initialized to `-inf` (so the first state always
checkpoints); consequently consecutive checkpoint times are at least `v`
apart and the checkpoint sequence is strictly increasing. -/
theorem run_simulation_checkpoint_policy (v T : ℚ) (env : RunEnv) (hv : 0 < v)
    (hmono : List.Chain' (fun a b => a ≤ b) (env.iters.map fun i => i.1.time))
    (hclean : cleanIters env.iters) (hinit : env.initResult = none)
    (hfirst : env.firstStatusResult = none) (htail : env.iterTailRaise = none) :
    uploadTimes (run_simulation v T env).1 =
      checkpointTimes v (env.iters.map fun i => i.1.time) ∧
    (∀ p t ts, checkpointsAux v (some p) (t :: ts) =
      if v + p ≤ t then t :: checkpointsAux v (some t) ts else checkpointsAux v (some p) ts) ∧
    (∀ t ts, checkpointsAux v none (t :: ts) = t :: checkpointsAux v (some t) ts) ∧
    List.Chain' (fun a b => a + v ≤ b) (uploadTimes (run_simulation v T env).1) ∧
    List.Chain' (fun a b => a < b) (uploadTimes (run_simulation v T env).1) := by
  have h1 : uploadTimes (run_simulation v T env).1 =
      checkpointTimes v (env.iters.map fun i => i.1.time) := by
    rw [run_simulation_uploadTimes_eq v T env hinit hfirst, htail]
    exact runLoop_clean_uploadTimes v T env.iters hclean 0 none 0
  refine ⟨h1, ?_, ?_, ?_, ?_⟩
  · intro p t ts
    by_cases hg : v + p ≤ t <;> simp [checkpointsAux, hg]
  · intro t ts
    simp [checkpointsAux]
  · rw [h1]
    exact checkpointTimes_chain v _
  · rw [h1]
    exact (checkpointTimes_chain v _).imp fun a b hab => by linarith

/-- Witness for `run_simulation_checkpoint_policy`: interval 30 over state
times `0, 20, 40` — checkpoints at `0` and `40` only. -/
theorem run_simulation_checkpoint_policy_witness :
    uploadTimes (run_simulation 30 96
      { initResult := none, firstStatusResult := none,
        iters := [(⟨0, false⟩, ⟨false, none, none⟩), (⟨20, false⟩, ⟨false, none, none⟩),
          (⟨40, true⟩, ⟨false, none, none⟩)],
        iterTailRaise := none, finalizeResult := none, lastStatusResult := none,
        errorStatusResult := none }).1 = [0, 40] := by
  have h := run_simulation_checkpoint_policy 30 96
    { initResult := none, firstStatusResult := none,
      iters := [(⟨0, false⟩, ⟨false, none, none⟩), (⟨20, false⟩, ⟨false, none, none⟩),
        (⟨40, true⟩, ⟨false, none, none⟩)],
      iterTailRaise := none, finalizeResult := none, lastStatusResult := none,
      errorStatusResult := none }
    (by norm_num)
    (by norm_num [List.chain'_cons])
    (by
      intro i hi
      fin_cases hi <;> exact ⟨rfl, rfl, rfl⟩)
    rfl rfl rfl
  rw [h.1]
  norm_num [checkpointTimes, checkpointsAux]

/-- C7: whenever the `try` block of the executor ends in an uncaught
exception `e` with last known progress `t`, the executor first attempts to
report status ERROR at `(t, target)`: if that report succeeds the trace ends
with the successful ERROR report and `e` still propagates; if the report
itself fails, the failure is only logged and the original exception `e`
still propagates. -/
theorem run_simulation_error_path (v T : ℚ) (env : RunEnv) (evs : List Event) (e : Exc)
    (t : ℚ) (h : run_body v T env = (evs, BodyResult.raised e t)) :
    (env.errorStatusResult = none →
      run_simulation v T env = (evs ++ [Event.statusSet JobState.error t T], Except.error e)) ∧
    (∀ e2, env.errorStatusResult = some e2 →
      run_simulation v T env =
        (evs ++ [Event.statusSetFailed JobState.error t T, Event.loggedStatusError],
          Except.error e)) := by
  constructor
  · intro herr
    simp [run_simulation, h, herr]
  · intro e2 herr
    simp [run_simulation, h, herr]

/-- Witness for `run_simulation_error_path`: initialization raises `boom`
and the ERROR report itself fails — the trace logs the secondary failure and
the outcome is still the original `boom`. -/
theorem run_simulation_error_path_witness :
    run_simulation 30 96 ⟨some "boom", none, [], none, none, none, some "statusfail"⟩ =
      ([Event.statusSetFailed JobState.error 0 96, Event.loggedStatusError],
        Except.error "boom") := by
  have h := run_simulation_error_path 30 96
    ⟨some "boom", none, [], none, none, none, some "statusfail"⟩ [] "boom" 0 rfl
  exact h.2 "statusfail" rfl

/-! ## Experiment creation and failure atomicity (`api.py`,
`run_experiment` lines 246-339 and `simulation_runner` lines 59-121)

The persisted state is modelled explicitly; the oracle names the child
index whose `createJob` call raises.  There is no rollback anywhere in the
source (`# TODO: what if this fails? how does it fail?`, line 294). -/

/-- The persisted records observable after an experiment-creation request:
whether the experiment folder was created, the created child Simulation
records, the experiment's registered `component_simulations`, and the
created Jobs — each child identified by its run name. -/
structure Store where
  expCreated : Bool
  sims : List (List Char)
  expChildren : List (List Char)
  jobs : List (List Char)
deriving DecidableEq, Repr

/-- `simulation_runner` (`api.py` lines 59-121) for an experiment child:
`createSimulation` persists the Simulation record (line 71), the experiment
record is updated and saved with the new child (lines 82-87), then
`createJob` runs (line 97, the modelled failure point); on success the Job
is persisted, the simulation saved with its job id and the task dispatched
(lines 111-120). -/
def simulation_runner (jobFail : Bool) (runName : List Char) (st : Store) :
    Store × Option Unit :=
  let st1 := { st with sims := st.sims ++ [runName],
                       expChildren := st.expChildren ++ [runName] }
  if jobFail then (st1, none)
  else ({ st1 with jobs := st1.jobs ++ [runName] }, some ())

/-- The run names generated by `run_experiment`'s double loop (`api.py`
lines 308-325): one name per concrete configuration (outer) and run index
(inner), each experimental variable's value read back from the concrete
configuration (always present there, since the expansion assigned it; the
`getD` default is never reached). -/
def experiment_run_names (doc : ConfigDoc) (name : String) (w runs_per_config : Nat) :
    List (List Char) :=
  (expand_configs doc).1.flatMap fun cfg =>
    (List.range runs_per_config).map fun run_number =>
      run_name name w run_number
        ((expand_configs doc).2.map fun ev => (ev.module, ev.parameter))
        ((expand_configs doc).2.map fun ev =>
          (configGet cfg ev.module ev.parameter).getD (Scalar.int 0))

/-- The per-child creation loop of `run_experiment` (`api.py` lines
308-337): create each child in order; an exception raised by one
`simulation_runner` call propagates immediately, leaving the store as it
stands. -/
def runsLoop (failAt : Option Nat) : Nat → List (List Char) → Store → Store × Option Unit
  | _, [], st => (st, some ())
  | k, n :: ns, st =>
    match simulation_runner (decide (failAt = some k)) n st with
    | (st', none) => (st', none)
    | (st', some _) => runsLoop failAt (k + 1) ns st'

/-- `run_experiment` (`api.py` lines 246-339): validate the target stopping
time (lines 247-250, a `RestException` before anything is created), expand
the configuration, create the experiment folder (lines 295-305), then
create one child (Simulation + Job) per concrete configuration and run
index. -/
def run_experiment (doc : ConfigDoc) (name : String) (w runs_per_config : Nat)
    (target_time : ℚ) (failAt : Option Nat) : Store × Option Unit :=
  if target_time ≤ 0 then (⟨false, [], [], []⟩, none)
  else
    runsLoop failAt 0 (experiment_run_names doc name w runs_per_config)
      ⟨true, [], [], []⟩

theorem runsLoop_failAt (names : List (List Char)) :
    ∀ (i k : Nat) (st : Store), i ≤ k → k - i < names.length →
      runsLoop (some k) i names st =
        ({ st with sims := st.sims ++ names.take (k - i + 1),
                   expChildren := st.expChildren ++ names.take (k - i + 1),
                   jobs := st.jobs ++ names.take (k - i) }, none) := by
  induction names with
  | nil =>
    intro i k st _ h2
    simp at h2
  | cons n ns ih =>
    intro i k st h1 h2
    have h2' : k - i < ns.length + 1 := by simpa using h2
    by_cases hik : k = i
    · subst hik
      have hd : (decide ((some k : Option Nat) = some k)) = true := decide_eq_true rfl
      have hL : runsLoop (some k) k (n :: ns) st =
          (⟨st.expCreated, st.sims ++ [n], st.expChildren ++ [n], st.jobs⟩, none) := by
        simp only [runsLoop, hd]
        rfl
      rw [hL]
      simp [Nat.sub_self, List.take_succ_cons]
    · have hlt : i < k := lt_of_le_of_ne h1 (Ne.symm hik)
      have hd : (decide ((some k : Option Nat) = some i)) = false :=
        decide_eq_false (by simpa using hik)
      have hL : runsLoop (some k) i (n :: ns) st =
          runsLoop (some k) (i + 1) ns
            ⟨st.expCreated, st.sims ++ [n], st.expChildren ++ [n], st.jobs ++ [n]⟩ := by
        simp only [runsLoop, hd]
        rfl
      rw [hL, ih (i + 1) k ⟨st.expCreated, st.sims ++ [n], st.expChildren ++ [n],
        st.jobs ++ [n]⟩ hlt (by omega)]
      have hm : k - i = (k - (i + 1)) + 1 := by omega
      have ht1 : (n :: ns).take (k - i + 1) = n :: ns.take (k - (i + 1) + 1) := by
        rw [hm, List.take_succ_cons]
      have ht2 : (n :: ns).take (k - i) = n :: ns.take (k - (i + 1)) := by
        rw [hm, List.take_succ_cons]
      rw [ht1, ht2]
      simp

/-- C8 amended: when the `createJob` call of child `k` (0-based, `k` below
the number of children) raises, the experiment folder, the `k` fully
created children before it, and child `k`'s Simulation record (with no Job)
all remain persisted and the error propagates — experiment creation is not
atomic, the already-created records are not rolled back. -/
theorem run_experiment_fail_leaves_prefix (doc : ConfigDoc) (name : String)
    (w runs_per_config : Nat) (target_time : ℚ) (k : Nat) (htt : 0 < target_time)
    (hk : k < (experiment_run_names doc name w runs_per_config).length) :
    run_experiment doc name w runs_per_config target_time (some k) =
      ({ expCreated := true,
         sims := (experiment_run_names doc name w runs_per_config).take (k + 1),
         expChildren := (experiment_run_names doc name w runs_per_config).take (k + 1),
         jobs := (experiment_run_names doc name w runs_per_config).take k }, none) := by
  rw [run_experiment, if_neg (not_le.mpr htt)]
  have h := runsLoop_failAt (experiment_run_names doc name w runs_per_config) 0 k
    ⟨true, [], [], []⟩ (Nat.zero_le k) (by simpa using hk)
  simpa using h

/-- Witness for `run_experiment_fail_leaves_prefix`: two concrete
configurations, one run each, `createJob` failing on the second child. -/
theorem run_experiment_fail_leaves_prefix_witness :
    run_experiment [("m", [("p", ParamValue.list [Scalar.int 1, Scalar.int 2])])]
        "e" 1 1 96 (some 1) =
      ({ expCreated := true,
         sims := (experiment_run_names
           [("m", [("p", ParamValue.list [Scalar.int 1, Scalar.int 2])])] "e" 1 1).take 2,
         expChildren := (experiment_run_names
           [("m", [("p", ParamValue.list [Scalar.int 1, Scalar.int 2])])] "e" 1 1).take 2,
         jobs := (experiment_run_names
           [("m", [("p", ParamValue.list [Scalar.int 1, Scalar.int 2])])] "e" 1 1).take 1 },
        none) :=
  run_experiment_fail_leaves_prefix
    [("m", [("p", ParamValue.list [Scalar.int 1, Scalar.int 2])])] "e" 1 1 96 1
    (by norm_num) (by decide)

/-- C8 counterexample: on the two-configuration document above with
`createJob` failing for the second child, the failed request leaves the
experiment folder created, two child Simulation records and one Job — a
partially created experiment, contradicting the claim that either all
children or none persist. -/
theorem run_experiment_partial_children_persist :
    ((run_experiment [("m", [("p", ParamValue.list [Scalar.int 1, Scalar.int 2])])]
        "e" 1 1 96 (some 1)).2 = none) ∧
    (run_experiment [("m", [("p", ParamValue.list [Scalar.int 1, Scalar.int 2])])]
        "e" 1 1 96 (some 1)).1.expCreated = true ∧
    (run_experiment [("m", [("p", ParamValue.list [Scalar.int 1, Scalar.int 2])])]
        "e" 1 1 96 (some 1)).1.sims.length = 2 ∧
    (run_experiment [("m", [("p", ParamValue.list [Scalar.int 1, Scalar.int 2])])]
        "e" 1 1 96 (some 1)).1.jobs.length = 1 := by
  refine ⟨?_, ?_, ?_, ?_⟩ <;> decide

end GirderNlisim
